import Mathlib

/-!
Shallow embedding of the SECS-II data / SML subsystem of the
`secsgem_simulator` package, together with proofs checking the
natural-language specification against it.

Conventions of the embedding:
* Python byte strings become `List Nat` (each entry a byte value).
* Python machine integers are unbounded, so plain `Int`/`Nat` model them
  exactly; wrap-around happens only in `struct.pack`, modelled with `%`.
* Every raising code path becomes `Except Err`; each constructor of `Err`
  corresponds to one raise site family in the source.
* The source's classes become a closed `Item` sum; the per-class method
  overrides become per-variant functions.
-/

/-- Kinds of located SML parse errors (`SMLToken.exception` raise sites). -/
inductive ErrKind where
  /-- `expected open character '<'` in `SECSData._read_item`. -/
  | expectedOpen
  /-- `unknown data type` in `SECSData._read_item`. -/
  | unknownSmlType
  /-- `expected length close ']'` in `SECSData._read_length`. -/
  | expectedLengthClose
  /-- `expected length (..) doesn't match counted items` in `SECSData._read_items`. -/
  | countMismatch
  /-- `value .. out of bounds` in `SECSData._verify_value_in_bounds` with a token. -/
  | valueOutOfRange
  /-- `expected stream function descriptor SxxFyy` in `SECSFunction.from_sml`. -/
  | expectedStreamFunction
  /-- `expected final character '.'` in `SECSFunction.from_sml`. -/
  | expectedFinal
deriving DecidableEq, Repr

/-- A lexer token: value plus recorded line/column (`SMLToken` in the source).
The recorded coordinates are whatever the source stores, bugs included. -/
structure SMLToken where
  value : String
  line : Int
  col : Int
deriving DecidableEq, Repr

/-- Errors of the embedded code; one constructor per raise-site family. -/
inductive Err where
  /-- Python `IndexError` from running past a token list or packet buffer. -/
  | indexError
  /-- `SMLParseError` carrying a token (`SMLToken.exception`). -/
  | located (kind : ErrKind) (tok : SMLToken)
  /-- `_verify_value_in_bounds` without a token (`ValueError`). -/
  | valueOutOfRangeNoTok
  /-- `_invalid_type_exception` (also the bare `isinstance` fall-through raises). -/
  | invalidType
  /-- Python `int(..)` rejecting a non-numeric string (`ValueError`). -/
  | intParseError
  /-- `No enough data found` in `SECSDataNumber.decode` (`ValueError`). -/
  | noEnoughData
  /-- `data length too small` in `SECSData.encode_item_header`. -/
  | headerLengthTooSmall
  /-- `data length too big` in `SECSData.encode_item_header`. -/
  | headerLengthTooBig
  /-- `struct.pack` range failure (`struct.error`). -/
  | structError
  /-- Termination fuel of the embedding ran out.  This is an artifact of the
  shallow embedding, not a source behaviour; all concrete evaluations below
  use enough fuel that it is never returned. -/
  | outOfFuel
deriving DecidableEq, Repr

/-! ## The SML lexer (`sml_parser.py`)

`SMLParser.parse_all` walks the source one character at a time via
`_get_char`, accumulating word tokens and emitting operator and quoted
tokens.  The helper `_SMLParserLocation` records the position of the first
character of the pending token; its `column` property returns `self._line`
(source line 246), which the model reproduces as-is. -/

/-- State of the `SMLParser.parse_all` loop. -/
structure LexState where
  /-- `self._line` (starts at 1). -/
  line : Nat
  /-- `self._col` (starts at 1). -/
  col : Nat
  /-- `_SMLParserLocation._line` (`-1` when uninitialized). -/
  locLine : Int
  /-- `_SMLParserLocation._column` (`-1` when uninitialized). -/
  locCol : Int
  /-- `current_token`. -/
  current : String
  /-- `current_delimiter` (`none` when the empty string). -/
  delim : Option Char
  /-- Emitted tokens, most recent first. -/
  toks : List SMLToken

/-- Whitespace characters of the lexer (`SMLParser.whitespaces`). -/
def SMLParser.whitespaces : List Char := [' ', '\t', '\n', '\r']

/-- Operator characters of the lexer (`SMLParser.operators`). -/
def SMLParser.operators : List Char := ['<', '>', '[', ']']

/-- Literal delimiter characters (`SMLParser.literal_delimiter`). -/
def SMLParser.literal_delimiter : List Char := ['\'', '\"']

/-- One `parse_all` loop iteration body after `_get_char`, plus the recursion
over the remaining characters.  At end of input the source returns at once,
silently dropping any pending `current_token`. -/
def SMLParser.parse_all : List Char → LexState → List SMLToken
  | [], st => st.toks.reverse
  | c :: rest, st =>
    -- `_get_char`: `self._col += 1`, then newline handling.
    let col1 := st.col + 1
    let (line2, col2) :=
      if c = '\n' then (st.line + 1, 0)
      else if c = '\r' then (st.line, 0)
      else (st.line, col1)
    -- `location.update_uninitialized_line/column`.
    let locLine2 : Int := if st.locLine = -1 then (line2 : Int) else st.locLine
    let locCol2 : Int := if st.locCol = -1 then (col2 : Int) else st.locCol
    match st.delim with
    | some d =>
      if c = d then
        -- closing quote: the quote is kept in the token value.  The token's
        -- column is `location.column`, whose getter returns the location's
        -- *line* field (source bug, sml_parser.py line 246).
        let tokVal := st.current.push c
        let toks' :=
          if tokVal ≠ "" then
            ⟨tokVal, locLine2, locLine2⟩ :: st.toks
          else st.toks
        parse_all rest ⟨line2, col2, -1, -1, "", none, toks'⟩
      else
        parse_all rest ⟨line2, col2, locLine2, locCol2, st.current.push c, some d, st.toks⟩
    | none =>
      if c ∈ SMLParser.whitespaces then
        let toks' :=
          if st.current ≠ "" then
            ⟨st.current, locLine2, locLine2⟩ :: st.toks
          else st.toks
        parse_all rest ⟨line2, col2, -1, -1, "", none, toks'⟩
      else if c ∈ SMLParser.operators then
        let toks' :=
          if st.current ≠ "" then
            ⟨st.current, locLine2, locLine2⟩ :: st.toks
          else st.toks
        -- operator tokens record `self._line, self._col` directly.
        let toks'' := ⟨String.singleton c, (line2 : Int), (col2 : Int)⟩ :: toks'
        parse_all rest ⟨line2, col2, -1, -1, "", none, toks''⟩
      else
        let delim' := if c ∈ SMLParser.literal_delimiter then some c else st.delim
        parse_all rest ⟨line2, col2, locLine2, locCol2, st.current.push c, delim', st.toks⟩

/-- Tokenize a source string as `SMLParser.__init__` does. -/
def tokenize (s : String) : List SMLToken :=
  SMLParser.parse_all s.data ⟨1, 1, -1, -1, "", none, []⟩

/-! ## Python `int` on token strings

`int(s)` (base 10) accepts an optional sign followed by decimal digits.
The model covers that grammar; the extra allowances of CPython (surrounding
whitespace, underscores between digits) are not exercised by any token the
claims touch. -/

/-- Decimal value of a digit list (most significant first). -/
def digitsVal (l : List Char) : Int :=
  l.foldl (fun a c => a * 10 + ((c.toNat : Int) - 48)) 0

/-- Model of Python `int(s)` over the characters of `s`. -/
def pyIntChars : List Char → Except Err Int
  | [] => .error .intParseError
  | c :: rest =>
    if c = '-' then
      if rest ≠ [] ∧ rest.all Char.isDigit then .ok (-(digitsVal rest))
      else .error .intParseError
    else if c = '+' then
      if rest ≠ [] ∧ rest.all Char.isDigit then .ok (digitsVal rest)
      else .error .intParseError
    else if (c :: rest).all Char.isDigit then .ok (digitsVal (c :: rest))
    else .error .intParseError

/-- Model of Python `int(s)` (base 10). -/
def pyInt (s : String) : Except Err Int := pyIntChars s.data

/-! ## The stream/function header pattern

`SECSFunction.stream_function_regex` is `^[sS](\d*)[fF](\d*)$` — note the
starred digit groups.  Digits never match `[fF]`, so the greedy match below
is equivalent to the backtracking regex. -/

/-- Match `^[sS](\d*)[fF](\d*)$` against a character list, returning the two
digit groups on success. -/
def sfMatchChars : List Char → Option (String × String)
  | [] => none
  | c :: rest =>
    if c = 's' ∨ c = 'S' then
      let d1 := rest.takeWhile Char.isDigit
      match rest.dropWhile Char.isDigit with
      | [] => none
      | f :: rest2 =>
        if f = 'f' ∨ f = 'F' then
          let d2 := rest2.takeWhile Char.isDigit
          match rest2.dropWhile Char.isDigit with
          | [] => some (String.mk d1, String.mk d2)
          | _ => none
        else none
    else none

/-- Match of `SECSFunction.stream_function_regex` on a token value. -/
def streamFunctionMatch (s : String) : Option (String × String) :=
  sfMatchChars s.data

/-- The spec's header pattern `^[sS]\d+[fF]\d+$` (at least one digit in each
group).  This definition follows the spec's words, for comparison with the
source's starred pattern. -/
def specStrictHeaderChars : List Char → Bool
  | [] => false
  | c :: rest =>
    if c = 's' ∨ c = 'S' then
      let d1 := rest.takeWhile Char.isDigit
      match rest.dropWhile Char.isDigit with
      | [] => false
      | f :: rest2 =>
        if f = 'f' ∨ f = 'F' then
          let d2 := rest2.takeWhile Char.isDigit
          match rest2.dropWhile Char.isDigit with
          | [] => !d1.isEmpty && !d2.isEmpty
          | _ => false
        else false
    else false

/-- The spec's strict header pattern on a string. -/
def specStrictHeader (s : String) : Bool := specStrictHeaderChars s.data

/-! ## The item data model (`secs_data*.py`)

The source's open class registry becomes a closed sum.  Numeric variants
carry their `_hsms_type`, `_bytes`, `_minimum_value`, `_maximum_value`
class attributes as per-tag functions.  Float payloads are modelled as
exact rationals: the bounds comparisons and the empty/nonempty structure —
all that the claims below touch — are unaffected by IEEE rounding. -/

/-- The integer numeric variants (`SECSDataI*`/`SECSDataU*`). -/
inductive NumTag where
  | I8 | I1 | I2 | I4 | U8 | U1 | U2 | U4
deriving DecidableEq, Repr

/-- The float numeric variants (`SECSDataF8`/`SECSDataF4`). -/
inductive FloatTag where
  | F8 | F4
deriving DecidableEq, Repr

/-- `_sml_type` of an integer variant. -/
def NumTag.sml : NumTag → String
  | .I8 => "I8" | .I1 => "I1" | .I2 => "I2" | .I4 => "I4"
  | .U8 => "U8" | .U1 => "U1" | .U2 => "U2" | .U4 => "U4"

/-- `_hsms_type` of an integer variant (octal codes in the source). -/
def NumTag.hsms : NumTag → Nat
  | .I8 => 0o30 | .I1 => 0o31 | .I2 => 0o32 | .I4 => 0o34
  | .U8 => 0o50 | .U1 => 0o51 | .U2 => 0o52 | .U4 => 0o54

/-- `_bytes` of an integer variant. -/
def NumTag.bytes : NumTag → Nat
  | .I8 => 8 | .I1 => 1 | .I2 => 2 | .I4 => 4
  | .U8 => 8 | .U1 => 1 | .U2 => 2 | .U4 => 4

/-- `_minimum_value` of an integer variant. -/
def NumTag.min : NumTag → Int
  | .I8 => -9223372036854775808 | .I1 => -128 | .I2 => -32768 | .I4 => -2147483648
  | .U8 => 0 | .U1 => 0 | .U2 => 0 | .U4 => 0

/-- `_maximum_value` of an integer variant. -/
def NumTag.max : NumTag → Int
  | .I8 => 9223372036854775807 | .I1 => 127 | .I2 => 32767 | .I4 => 2147483647
  | .U8 => 0xFFFFFFFFFFFFFFFF | .U1 => 0xFF | .U2 => 0xFFFF | .U4 => 0xFFFFFFFF

/-- Whether the variant packs signed values (`_struct_code` lowercase). -/
def NumTag.signed : NumTag → Bool
  | .I8 => true | .I1 => true | .I2 => true | .I4 => true
  | .U8 => false | .U1 => false | .U2 => false | .U4 => false

/-- `_sml_type` of a float variant. -/
def FloatTag.sml : FloatTag → String
  | .F8 => "F8" | .F4 => "F4"

/-- `_hsms_type` of a float variant. -/
def FloatTag.hsms : FloatTag → Nat
  | .F8 => 0o40 | .F4 => 0o44

/-- `_bytes` of a float variant. -/
def FloatTag.bytes : FloatTag → Nat
  | .F8 => 8 | .F4 => 4

/-- `_minimum_value` of a float variant, as an exact rational. -/
def FloatTag.min : FloatTag → Rat
  | .F8 => -(179769 * 10 ^ 303 : Int)
  | .F4 => -(340282 * 10 ^ 33 : Int)

/-- `_maximum_value` of a float variant, as an exact rational. -/
def FloatTag.max : FloatTag → Rat
  | .F8 => (179769 * 10 ^ 303 : Int)
  | .F4 => (340282 * 10 ^ 33 : Int)

/-- A SECS item: the closed sum of all `SECSData` subclasses.  Payloads:
`L` children, `B`/`A`/`J` bytes, `BOOLEAN` truth values, numeric value
lists. -/
inductive Item where
  | L (items : List Item)
  | B (payload : List Nat)
  | BOOLEAN (vals : List Bool)
  | A (payload : List Nat)
  | J (payload : List Nat)
  | Num (t : NumTag) (vals : List Int)
  | F (t : FloatTag) (vals : List Rat)

/-- `SECSData._verify_value_in_bounds` for integer values: in-bounds values
pass through, out-of-bounds raise — located when a token is at hand. -/
def SECSData.verify_value_in_bounds (min max v : Int) (tok : Option SMLToken) :
    Except Err Int :=
  if min ≤ v ∧ v ≤ max then .ok v
  else
    match tok with
    | some t => .error (.located .valueOutOfRange t)
    | none => .error .valueOutOfRangeNoTok

/-- `SECSData._verify_value_in_bounds` for float values. -/
def SECSData.verify_float_in_bounds (min max v : Rat) (tok : Option SMLToken) :
    Except Err Rat :=
  if min ≤ v ∧ v ≤ max then .ok v
  else
    match tok with
    | some t => .error (.located .valueOutOfRange t)
    | none => .error .valueOutOfRangeNoTok

/-- Host values a numeric constructor may receive (`typing.Any` narrowed to
the shapes `SECSDataNumber.validate_value` distinguishes). -/
inductive NumPyValue where
  /-- A scalar of the variant's `_type`. -/
  | scalar (v : Int)
  /-- A homogeneous list of the variant's `_type`. -/
  | list (vs : List Int)
  /-- Any other shape. -/
  | other
deriving DecidableEq, Repr

/-- `SECSDataNumber.validate_value`.  The source's `return values` statement
sits *inside* the `for` loop over a list argument, so after the first
element is checked and appended the method returns: only the first element
of a list survives, and later elements are never bounds-checked.  An empty
list falls through both `isinstance` tests and raises the invalid-type
error. -/
def SECSDataNumber.validate_value (t : NumTag) : NumPyValue → Except Err (List Int)
  | .list [] => .error .invalidType
  | .list (v :: _) => do
    let v' ← SECSData.verify_value_in_bounds t.min t.max v none
    .ok [v']
  | .scalar v => do
    let v' ← SECSData.verify_value_in_bounds t.min t.max v none
    .ok [v']
  | .other => .error .invalidType

/-- Float-variant host values. -/
inductive FloatPyValue where
  | scalar (v : Rat)
  | list (vs : List Rat)
  | other
deriving DecidableEq, Repr

/-- `SECSDataNumber.validate_value` for the float variants (same code path,
`_type = float`). -/
def SECSDataNumber.validate_float_value (t : FloatTag) :
    FloatPyValue → Except Err (List Rat)
  | .list [] => .error .invalidType
  | .list (v :: _) => do
    let v' ← SECSData.verify_float_in_bounds t.min t.max v none
    .ok [v']
  | .scalar v => do
    let v' ← SECSData.verify_float_in_bounds t.min t.max v none
    .ok [v']
  | .other => .error .invalidType

/-! ## The item header codec (`SECSData.encode_item_header`,
`SECSData._decode_item_header`) -/

/-- `SECSData.encode_item_header`: format byte (6-bit type, 2-bit length
byte count) followed by 1–3 big-endian length bytes, picked exactly as the
source's chained `if`s do. -/
def SECSData.encode_item_header (hsmsType : Nat) (length : Int) :
    Except Err (List Nat) :=
  if length < 0 then .error .headerLengthTooSmall
  else if length > 0xFFFFFF then .error .headerLengthTooBig
  else
    let n := length.toNat
    if length > 0xFFFF then
      .ok [(hsmsType <<< 2) ||| 3, (n &&& 0xFF0000) >>> 16, (n &&& 0xFF00) >>> 8, n &&& 0xFF]
    else if length > 0xFF then
      .ok [(hsmsType <<< 2) ||| 2, (n &&& 0xFF00) >>> 8, n &&& 0xFF]
    else
      .ok [(hsmsType <<< 2) ||| 1, n &&& 0xFF]

/-- `PacketData.get_one`: one byte or `IndexError`. -/
def PacketData.get_one : List Nat → Except Err (Nat × List Nat)
  | [] => .error .indexError
  | b :: rest => .ok (b, rest)

/-- The length-byte accumulation loop of `SECSData._decode_item_header`. -/
def SECSData.read_length_bytes : Nat → Nat → List Nat → Except Err (Nat × List Nat)
  | 0, acc, pd => .ok (acc, pd)
  | k + 1, acc, pd => do
    let (b, pd') ← PacketData.get_one pd
    SECSData.read_length_bytes k (acc * 256 + b) pd'

/-- `SECSData._decode_item_header`: format byte, then as many length bytes
as its two low bits say. -/
def SECSData.decode_item_header (pd : List Nat) :
    Except Err (Nat × Nat × List Nat) := do
  let (formatByte, pd1) ← PacketData.get_one pd
  let formatCode := (formatByte &&& 0b11111100) >>> 2
  let lengthBytes := formatByte &&& 0b00000011
  let (length, pd2) ← SECSData.read_length_bytes lengthBytes 0 pd1
  .ok (formatCode, length, pd2)

/-! ## struct pack/unpack (big-endian fixed width) -/

/-- Big-endian bytes of `n` in `w` bytes (`struct.pack` byte layout). -/
def beBytes (w n : Nat) : List Nat :=
  (List.range w).map (fun i => n / 256 ^ (w - 1 - i) % 256)

/-- Value of big-endian bytes (`struct.unpack` accumulation). -/
def beValue (chunk : List Nat) : Nat :=
  chunk.foldl (fun acc b => acc * 256 + b) 0

/-- `struct.pack(">code", v)` for an integer variant: rejects values outside
the format's range (exactly the variant's bounds), otherwise emits the
two's-complement big-endian bytes. -/
def structPack (t : NumTag) (v : Int) : Except Err (List Nat) :=
  if v < t.min ∨ t.max < v then .error .structError
  else .ok (beBytes t.bytes (v.emod (2 ^ (8 * t.bytes))).toNat)

/-- `struct.unpack(">code", chunk)` for an integer variant. -/
def structUnpack (t : NumTag) (chunk : List Nat) : Int :=
  let n := beValue chunk
  if t.signed ∧ (n : Int) ≥ 2 ^ (8 * t.bytes - 1) then
    (n : Int) - 2 ^ (8 * t.bytes)
  else (n : Int)

/-! ## Numeric encode/decode (`SECSDataNumber`) -/

/-- The packing loop of `SECSDataNumber.encode`. -/
def SECSDataNumber.pack_values (t : NumTag) : List Int → Except Err (List Nat)
  | [] => .ok []
  | v :: rest => do
    let bs ← structPack t v
    let tl ← SECSDataNumber.pack_values t rest
    .ok (bs ++ tl)

/-- `SECSDataNumber.encode`: item header for `len(value) * _bytes` bytes
followed by the packed values. -/
def SECSDataNumber.encode (t : NumTag) (vals : List Int) : Except Err (List Nat) := do
  let hdr ← SECSData.encode_item_header t.hsms ((vals.length * t.bytes : Nat) : Int)
  let body ← SECSDataNumber.pack_values t vals
  .ok (hdr ++ body)

/-- The reading loop of `SECSDataNumber.decode`: `length // _bytes` chunks of
`_bytes` bytes each; a short chunk raises `No enough data found`. -/
def SECSDataNumber.read_values (t : NumTag) : Nat → List Nat → Except Err (List Int × List Nat)
  | 0, pd => .ok ([], pd)
  | k + 1, pd =>
    let chunk := pd.take t.bytes
    if chunk.length ≠ t.bytes then .error .noEnoughData
    else do
      let (rest, pd') ← SECSDataNumber.read_values t k (pd.drop t.bytes)
      .ok (structUnpack t chunk :: rest, pd')

/-- `SECSDataNumber.decode`: header, then `length // _bytes` unpacked values,
then the constructor (`cls(result)`, i.e. `validate_value` on a list). -/
def SECSDataNumber.decode (t : NumTag) (pd : List Nat) :
    Except Err (Item × List Nat) := do
  let (_, length, pd1) ← SECSData.decode_item_header pd
  let (vals, pd2) ← SECSDataNumber.read_values t (length / t.bytes) pd1
  let vals' ← SECSDataNumber.validate_value t (.list vals)
  .ok (Item.Num t vals', pd2)

/-! ## B encode/decode (`secs_data_b.py`) -/

/-- `SECSDataB.encode`: header for the byte count followed by the raw
bytes. -/
def SECSDataB.encode (payload : List Nat) : Except Err (List Nat) := do
  let hdr ← SECSData.encode_item_header 0o10 (payload.length : Int)
  .ok (hdr ++ payload)

/-- `SECSDataB.decode`: header, then `data.get(length)` — Python slicing
returns at most `length` bytes without complaint.  The constructor call
`cls([chunk])` passes the chunk through `_validate_list_value`'s `bytes`
branch unchanged. -/
def SECSDataB.decode (pd : List Nat) : Except Err (Item × List Nat) := do
  let (_, length, pd1) ← SECSData.decode_item_header pd
  .ok (Item.B (pd1.take length), pd1.drop length)

/-! ## BOOLEAN / A / J / L encode (`secs_data_boolean.py`, `secs_data_j.py`,
`secs_data_l.py`; `A` shares the byte layout of its string base class) -/

/-- `SECSDataBOOLEAN.encode`: one byte per element, `0x00` or `0x01`. -/
def SECSDataBOOLEAN.encode (vals : List Bool) : Except Err (List Nat) := do
  let hdr ← SECSData.encode_item_header 0o11 (vals.length : Int)
  .ok (hdr ++ vals.map (fun b => if b then 1 else 0))

/-- `SECSDataJ.encode`: header for the byte count followed by the raw
bytes. -/
def SECSDataJ.encode (payload : List Nat) : Except Err (List Nat) := do
  let hdr ← SECSData.encode_item_header 0o21 (payload.length : Int)
  .ok (hdr ++ payload)

/-- Modelled from the spec: `secs_data_str.py` (class `SECSDataStr`, the base
of `SECSDataA`) is not under `src/`.  Per spec §4.4.2, `A` encodes as
header length = byte count, payload = raw bytes. -/
def SECSDataA.encode (payload : List Nat) : Except Err (List Nat) := do
  let hdr ← SECSData.encode_item_header 0o20 (payload.length : Int)
  .ok (hdr ++ payload)

/-- Stand-in for `struct.pack(">d"/">f", v)`: IEEE-754 packing is not
modelled (floating-point bit layout); no theorem below depends on the bytes
of a float payload, only on their count. -/
def structPackFloat (t : FloatTag) (_ : Rat) : List Nat :=
  List.replicate t.bytes 0

/-- `SECSDataNumber.encode` for the float variants: header for
`len(value) * _bytes` followed by the packed values (stand-in bytes). -/
def SECSDataNumber.encode_float (t : FloatTag) (vals : List Rat) :
    Except Err (List Nat) := do
  let hdr ← SECSData.encode_item_header t.hsms ((vals.length * t.bytes : Nat) : Int)
  .ok (hdr ++ (vals.map (structPackFloat t)).flatten)

mutual

/-- `SECSData.encode` dispatch over the item variants; `SECSDataL.encode`
uses the child count as header length and concatenates the child
encodings. -/
def encodeItem : Item → Except Err (List Nat)
  | .L items => do
    let hdr ← SECSData.encode_item_header 0o00 (items.length : Int)
    let body ← encodeItems items
    .ok (hdr ++ body)
  | .B payload => SECSDataB.encode payload
  | .BOOLEAN vals => SECSDataBOOLEAN.encode vals
  | .A payload => SECSDataA.encode payload
  | .J payload => SECSDataJ.encode payload
  | .Num t vals => SECSDataNumber.encode t vals
  | .F t vals => SECSDataNumber.encode_float t vals

/-- The `for item in self._value: result += item.encode()` loop of
`SECSDataL.encode`. -/
def encodeItems : List Item → Except Err (List Nat)
  | [] => .ok []
  | i :: rest => do
    let hd ← encodeItem i
    let tl ← encodeItems rest
    .ok (hd ++ tl)

end

/-! ## The SML token stream (`SMLParser.get_token` / `peek_token`)

The Python parser keeps a `_token_counter` starting at `-1`; `get_token`
pre-increments, `peek_token` looks one ahead.  `next` below is the index the
next `get_token` returns; running past the list is `IndexError`. -/

/-- Parser position in the materialized token list. -/
structure PState where
  toks : List SMLToken
  next : Nat
deriving Repr

/-- `SMLParser.get_token`. -/
def PState.get_token (st : PState) : Except Err (SMLToken × PState) :=
  match st.toks[st.next]? with
  | some t => .ok (t, ⟨st.toks, st.next + 1⟩)
  | none => .error .indexError

/-- `SMLParser.peek_token` with the default lookahead of 1. -/
def PState.peek_token (st : PState) : Except Err SMLToken :=
  match st.toks[st.next]? with
  | some t => .ok t
  | none => .error .indexError

/-- Python's substring test `needle in ">."` as used by
`SECSData._read_items`'s loop guard. -/
def pyInStr (needle hay : String) : Bool :=
  decide (needle.data <:+: hay.data)

/-- Unsigned digit value in a base, `none` for a bad digit. -/
def baseDigit (base : Nat) (c : Char) : Option Nat :=
  let v :=
    if c.isDigit then some (c.toNat - 48)
    else if 'a' ≤ c ∧ c ≤ 'z' then some (c.toNat - 87)
    else if 'A' ≤ c ∧ c ≤ 'Z' then some (c.toNat - 55)
    else none
  match v with
  | some d => if d < base then some d else none
  | none => none

/-- Digits-in-base value, `none` when empty or containing a bad digit. -/
def baseVal (base : Nat) (l : List Char) : Option Nat :=
  if l = [] then none
  else l.foldl (fun acc c => do
    let a ← acc
    let d ← baseDigit base c
    pure (a * base + d)) (some 0)

/-- Model of Python `int(s, 0)`: optional sign; `0x`/`0o`/`0b` prefixes;
plain decimal otherwise (where a leading zero is only legal for `0`
itself). -/
def pyIntBase0Chars (l : List Char) : Except Err Int :=
  let (sign, body) :=
    match l with
    | '-' :: rest => ((-1 : Int), rest)
    | '+' :: rest => ((1 : Int), rest)
    | rest => ((1 : Int), rest)
  let mag : Option Nat :=
    match body with
    | '0' :: x :: rest =>
      if x = 'x' ∨ x = 'X' then baseVal 16 rest
      else if x = 'o' ∨ x = 'O' then baseVal 8 rest
      else if x = 'b' ∨ x = 'B' then baseVal 2 rest
      -- base 0 rejects other multi-digit literals with a leading zero
      else none
    | body => baseVal 10 body
  match mag with
  | some n => .ok (sign * n)
  | none => .error .intParseError

/-- Model of Python `int(s, 0)`. -/
def pyIntBase0 (s : String) : Except Err Int := pyIntBase0Chars s.data

/-- Model of Python `str.strip('"')`: remove all leading and trailing `"`
characters. -/
def pyStripQuotes (s : String) : String :=
  String.mk (((s.data.dropWhile (· = '"')).reverse.dropWhile (· = '"')).reverse)

/-- Model of Python `str.encode("ascii")`: code points above 127 raise. -/
def pyEncodeAscii (s : String) : Except Err (List Nat) :=
  if s.data.all (fun c => c.toNat < 128) then .ok (s.data.map Char.toNat)
  else .error .invalidType

/-- Model of Python `float(s)` on plain decimal literals, as an exact
rational.  IEEE rounding is not modelled; no theorem below parses a float
token. -/
def pyFloat (s : String) : Except Err Rat :=
  let (sign, body) :=
    match s.data with
    | '-' :: rest => ((-1 : Rat), rest)
    | '+' :: rest => ((1 : Rat), rest)
    | rest => ((1 : Rat), rest)
  let intPart := body.takeWhile Char.isDigit
  match body.dropWhile Char.isDigit with
  | [] =>
    if intPart = [] then .error .intParseError
    else .ok (sign * (digitsVal intPart : Rat))
  | '.' :: fracRest =>
    let fracPart := fracRest.takeWhile Char.isDigit
    if fracRest.dropWhile Char.isDigit = [] ∧ (intPart ≠ [] ∨ fracPart ≠ []) then
      .ok (sign * ((digitsVal intPart : Rat) +
        (digitsVal fracPart : Rat) / ((10 : Rat) ^ fracPart.length)))
    else .error .intParseError
  | _ => .error .intParseError

/-! ## Per-variant SML body readers -/

/-- `SECSDataNumber._read_sml_token` for an integer variant: read value
tokens until the peeked token is `>`, parse each with `int(..)` and bounds
check it against the token; finally consume the `>`. -/
def SECSDataNumber.read_sml_token (t : NumTag) : Nat → PState → Except Err (List Int × PState)
  | 0, _ => .error .outOfFuel
  | fuel + 1, st => do
    let pk ← st.peek_token
    if pk.value ≠ ">" then do
      let (item, st1) ← st.get_token
      let v ← pyInt item.value
      let v ← SECSData.verify_value_in_bounds t.min t.max v (some item)
      let (rest, st2) ← SECSDataNumber.read_sml_token t fuel st1
      .ok (v :: rest, st2)
    else do
      let (_, st1) ← st.get_token
      .ok ([], st1)

/-- The count verification at the end of `SECSData._read_items`:
`if length is not None and 0 < int(length.value) != count: raise`. -/
def SECSData.check_count (lengthTok : Option SMLToken) (count : Nat) :
    Except Err Unit :=
  match lengthTok with
  | none => .ok ()
  | some tok => do
    let n ← pyInt tok.value
    if 0 < n ∧ n ≠ (count : Int) then .error (.located .countMismatch tok)
    else .ok ()

/-- `SECSData._read_length`: the count token followed by a required `]`. -/
def SECSData.read_length (st : PState) : Except Err (SMLToken × PState) := do
  let (lengthTok, st1) ← st.get_token
  let (closing, st2) ← st1.get_token
  if closing.value ≠ "]" then .error (.located .expectedLengthClose closing)
  else .ok (lengthTok, st2)

/-- `SECSDataB._read_sml_token`: integer tokens in any base prefix
(`int(value, 0)`), bounds-checked 0..255, gathered into bytes. -/
def SECSDataB.read_sml_token : Nat → PState → Except Err (List Nat × PState)
  | 0, _ => .error .outOfFuel
  | fuel + 1, st => do
    let pk ← st.peek_token
    if pk.value ≠ ">" then do
      let (item, st1) ← st.get_token
      let v ← pyIntBase0 item.value
      let v ← SECSData.verify_value_in_bounds 0 0xFF v (some item)
      let (rest, st2) ← SECSDataB.read_sml_token fuel st1
      .ok (v.toNat :: rest, st2)
    else do
      let (_, st1) ← st.get_token
      .ok ([], st1)

/-- `SECSDataBOOLEAN._read_sml_token`: integer tokens, bounds-checked 0..1,
folded to `value == 1`. -/
def SECSDataBOOLEAN.read_sml_token : Nat → PState → Except Err (List Bool × PState)
  | 0, _ => .error .outOfFuel
  | fuel + 1, st => do
    let pk ← st.peek_token
    if pk.value ≠ ">" then do
      let (item, st1) ← st.get_token
      let v ← pyIntBase0 item.value
      let v ← SECSData.verify_value_in_bounds 0 1 v (some item)
      let (rest, st2) ← SECSDataBOOLEAN.read_sml_token fuel st1
      .ok ((v = 1) :: rest, st2)
    else do
      let (_, st1) ← st.get_token
      .ok ([], st1)

/-- `SECSDataJ._read_sml_token`: a token starting with `"` contributes its
`strip('"')`-ed text encoded as ASCII; any other token is an integer
byte. -/
def SECSDataJ.read_sml_token : Nat → PState → Except Err (List Nat × PState)
  | 0, _ => .error .outOfFuel
  | fuel + 1, st => do
    let pk ← st.peek_token
    if pk.value ≠ ">" then do
      let (item, st1) ← st.get_token
      let bytes ←
        if item.value.startsWith "\"" then
          pyEncodeAscii (pyStripQuotes item.value)
        else do
          let v ← pyIntBase0 item.value
          let v ← SECSData.verify_value_in_bounds 0 0xFF v (some item)
          pure [v.toNat]
      let (rest, st2) ← SECSDataJ.read_sml_token fuel st1
      .ok (bytes ++ rest, st2)
    else do
      let (_, st1) ← st.get_token
      .ok ([], st1)

/-- Modelled from the spec: `secs_data_str.py` (`SECSDataStr`, base of
`SECSDataA`) is not under `src/`.  Per spec §4.3: read tokens; a token whose
first char is a quote contributes its inner text as Latin-1 bytes; any other
token parses as an integer byte. -/
def SECSDataA.read_sml_token : Nat → PState → Except Err (List Nat × PState)
  | 0, _ => .error .outOfFuel
  | fuel + 1, st => do
    let pk ← st.peek_token
    if pk.value ≠ ">" then do
      let (item, st1) ← st.get_token
      let bytes ←
        if item.value.startsWith "\"" ∨ item.value.startsWith "'" then
          pure ((pyStripQuotes item.value).data.map Char.toNat)
        else do
          let v ← pyIntBase0 item.value
          let v ← SECSData.verify_value_in_bounds 0 0xFF v (some item)
          pure [v.toNat]
      let (rest, st2) ← SECSDataA.read_sml_token fuel st1
      .ok (bytes ++ rest, st2)
    else do
      let (_, st1) ← st.get_token
      .ok ([], st1)

/-- `SECSDataNumber._read_sml_token` for a float variant (`float(value)`).
The literal-to-rational reading abstracts from IEEE rounding; no theorem
below parses a float token. -/
def SECSDataNumber.read_float_sml_token (t : FloatTag) : Nat → PState → Except Err (List Rat × PState)
  | 0, _ => .error .outOfFuel
  | fuel + 1, st => do
    let pk ← st.peek_token
    if pk.value ≠ ">" then do
      let (item, st1) ← st.get_token
      let v ← pyFloat item.value
      let v ← SECSData.verify_float_in_bounds t.min t.max v (some item)
      let (rest, st2) ← SECSDataNumber.read_float_sml_token t fuel st1
      .ok (v :: rest, st2)
    else do
      let (_, st1) ← st.get_token
      .ok ([], st1)

/-- `from_sml_tokens` for an integer variant:
`cls(cls._read_sml_token(parser))` — the constructor truncates. -/
def SECSData.read_num_item (t : NumTag) : Nat → PState → Except Err (Item × PState)
  | 0, _ => .error .outOfFuel
  | fuel + 1, st => do
    let (vals, st1) ← SECSDataNumber.read_sml_token t (fuel + 1) st
    let vals' ← SECSDataNumber.validate_value t (.list vals)
    .ok (Item.Num t vals', st1)

/-- `from_sml_tokens` for a float variant. -/
def SECSData.read_float_item (t : FloatTag) : Nat → PState → Except Err (Item × PState)
  | 0, _ => .error .outOfFuel
  | fuel + 1, st => do
    let (vals, st1) ← SECSDataNumber.read_float_sml_token t (fuel + 1) st
    let vals' ← SECSDataNumber.validate_float_value t (.list vals)
    .ok (Item.F t vals', st1)

mutual

/-- `SECSData._read_item`: `<`, a known TAG, then the tag's
`from_sml_tokens`. -/
def SECSData.read_item : Nat → PState → Except Err (Item × PState)
  | 0, _ => .error .outOfFuel
  | fuel + 1, st => do
    let (startTok, st1) ← st.get_token
    if startTok.value ≠ "<" then .error (.located .expectedOpen startTok)
    else do
      let (tagTok, st2) ← st1.get_token
      match tagTok.value.toUpper with
      | "L" => do
        let (items, st3) ← SECSData.read_items fuel st2
        -- `SECSDataL.validate_value` passes a list through unchanged.
        .ok (Item.L items, st3)
      | "B" => do
        let (payload, st3) ← SECSDataB.read_sml_token fuel st2
        .ok (Item.B payload, st3)
      | "BOOLEAN" => do
        let (vals, st3) ← SECSDataBOOLEAN.read_sml_token fuel st2
        .ok (Item.BOOLEAN vals, st3)
      | "A" => do
        let (payload, st3) ← SECSDataA.read_sml_token fuel st2
        .ok (Item.A payload, st3)
      | "J" => do
        let (payload, st3) ← SECSDataJ.read_sml_token fuel st2
        .ok (Item.J payload, st3)
      | "I8" => SECSData.read_num_item .I8 fuel st2
      | "I1" => SECSData.read_num_item .I1 fuel st2
      | "I2" => SECSData.read_num_item .I2 fuel st2
      | "I4" => SECSData.read_num_item .I4 fuel st2
      | "U8" => SECSData.read_num_item .U8 fuel st2
      | "U1" => SECSData.read_num_item .U1 fuel st2
      | "U2" => SECSData.read_num_item .U2 fuel st2
      | "U4" => SECSData.read_num_item .U4 fuel st2
      | "F8" => SECSData.read_float_item .F8 fuel st2
      | "F4" => SECSData.read_float_item .F4 fuel st2
      | _ => .error (.located .unknownSmlType tagTok)
termination_by structural fuel _ => fuel

/-- `SECSData._read_items` (used by `L` only): optional `[ count ]`, child
items until the peeked token is a substring of `">."`, the closing token,
then the count verification. -/
def SECSData.read_items : Nat → PState → Except Err (List Item × PState)
  | 0, _ => .error .outOfFuel
  | fuel + 1, st => do
    let pk ← st.peek_token
    let (lengthTok?, st1) ←
      if pk.value = "[" then do
        let (_, stA) ← st.get_token
        let (lengthTok, stB) ← SECSData.read_length stA
        pure (some lengthTok, stB)
      else pure ((none : Option SMLToken), st)
    let (items, count, st2) ← SECSData.read_items_loop fuel st1
    let (_, st3) ← st2.get_token
    let _ ← SECSData.check_count lengthTok? count
    .ok (items, st3)
termination_by structural fuel _ => fuel

/-- The `while parser.peek_token().value not in ">.":` loop of
`SECSData._read_items`; the sub-parser for `L` is `_read_item` itself. -/
def SECSData.read_items_loop : Nat → PState → Except Err (List Item × Nat × PState)
  | 0, _ => .error .outOfFuel
  | fuel + 1, st => do
    let pk ← st.peek_token
    if pyInStr pk.value ">." then .ok ([], 0, st)
    else do
      let (item, st1) ← SECSData.read_item fuel st
      let (rest, cnt, st2) ← SECSData.read_items_loop fuel st1
      .ok (item :: rest, cnt + 1, st2)
termination_by structural fuel _ => fuel

end

/-! ## Canonical SML emission (`to_sml`) -/

/-- `indent * ' '`. -/
def spaces (n : Nat) : String := String.mk (List.replicate n ' ')

/-- Python `hex(n)` for a byte value: `0x` plus lowercase hex digits. -/
def pyHex (n : Nat) : String := "0x" ++ String.mk (Nat.toDigits 16 n)

/-- The shared `SECSData.to_sml` body: `< TAG >` when the payload is empty,
otherwise `< TAG v1 .. vn >`. -/
def SECSData.to_sml_base (tag : String) (vals : List String) (indent : Nat) : String :=
  if vals.length = 0 then spaces indent ++ "< " ++ tag ++ " >"
  else spaces indent ++ "< " ++ tag ++ " " ++ String.intercalate " " vals ++ " >"

/-- `string.printable` with `\n` and `\r` removed, as a byte predicate
(the `printable_chars` attribute of the string classes). -/
def isPrintableByte (b : Nat) : Bool :=
  (0x20 ≤ b && b ≤ 0x7e) || b == 9 || b == 11 || b == 12

/-- The character-walking loop of `SECSDataJ.to_sml`, carrying
`last_char_printable`; the final closing quote is appended when the last
character was printable. -/
def SECSDataJ.render : List Nat → Bool → String
  | [], last => if last then "\"" else ""
  | c :: rest, last =>
    if isPrintableByte c then
      (if last then String.singleton (Char.ofNat c)
       else " \"" ++ String.singleton (Char.ofNat c)) ++ SECSDataJ.render rest true
    else
      (if last then "\" " ++ pyHex c else " " ++ pyHex c) ++ SECSDataJ.render rest false

/-- `SECSDataJ.to_sml`: note the format string `< {type}{data}>` — there is
no space before the closing `>`, and none after the tag when the payload is
empty. -/
def SECSDataJ.to_sml (payload : List Nat) (indent : Nat) : String :=
  spaces indent ++ "< J" ++ SECSDataJ.render payload false ++ ">"

/-- Modelled from the spec: `secs_data_str.py` (`SECSDataStr`, base of
`SECSDataA`) is not under `src/`.  Per spec §4.2, runs of printable
characters are emitted as one double-quoted string, non-printables as
individual hex bytes. -/
def SECSDataA.parts : List Nat → List String
  | [] => []
  | b :: rest =>
    if isPrintableByte b then
      let run := rest.takeWhile isPrintableByte
      ("\"" ++ String.mk ((b :: run).map Char.ofNat) ++ "\"")
        :: SECSDataA.parts (rest.dropWhile isPrintableByte)
    else
      pyHex b :: SECSDataA.parts rest
termination_by l => l.length
decreasing_by
  · simp only [List.length_cons]
    have := (List.dropWhile_suffix (l := rest) isPrintableByte).sublist.length_le
    omega
  · simp [Nat.lt_succ_self]

/-- Modelled from the spec: `A` renders as `< A "printable-run" 0xNN .. >`,
and an empty payload as `< A >` (spec §4.2). -/
def SECSDataA.to_sml (payload : List Nat) (indent : Nat) : String :=
  SECSData.to_sml_base "A" (SECSDataA.parts payload) indent

/-- Stand-in for Python `repr(float)` on a float value; never evaluated by
a theorem below (only empty float payloads are rendered). -/
def pyFloatRepr (v : Rat) : String := toString v

mutual

/-- `to_sml` dispatch over the variants:  the base-class body for `B`
(hex), `BOOLEAN` (`0x1`/`0x0`), and the numeric variants (decimal);
`SECSDataL.to_sml`'s multi-line block for `L`; the overridden `J` and the
spec-modelled `A` renderers. -/
def Item.to_sml : Item → Nat → String
  | .L items, indent =>
    if items.length = 0 then spaces indent ++ "< L >"
    else
      spaces indent ++ "< L [" ++ toString items.length ++ "]\n" ++
        String.intercalate "\n" (Item.to_sml_children items (indent + 4)) ++ "\n" ++
        spaces indent ++ ">"
  | .B payload, indent => SECSData.to_sml_base "B" (payload.map pyHex) indent
  | .BOOLEAN vals, indent =>
    SECSData.to_sml_base "BOOLEAN" (vals.map (fun b => if b then "0x1" else "0x0")) indent
  | .A payload, indent => SECSDataA.to_sml payload indent
  | .J payload, indent => SECSDataJ.to_sml payload indent
  | .Num t vals, indent => SECSData.to_sml_base t.sml (vals.map toString) indent
  | .F t vals, indent => SECSData.to_sml_base t.sml (vals.map pyFloatRepr) indent

/-- The child list `[f"{value.to_sml(indent + 4)}" for value in self._value]`
of `SECSDataL.to_sml`. -/
def Item.to_sml_children : List Item → Nat → List String
  | [], _ => []
  | i :: rest, indent => Item.to_sml i indent :: Item.to_sml_children rest indent

end

/-! ## The stream/function envelope (`SECSFunction`) -/

/-- `SECSFunction`: stream, function, W-bit and optional root item.  The
HSMS header back-reference carries no information the claims touch. -/
structure SECSFunction where
  stream : Int
  function : Int
  w_bit : Bool
  data : Option Item

/-- The header phase of `SECSFunction.from_sml`: first token, regex match,
and the two `int(..)` conversions of the digit groups. -/
def SECSFunction.parse_stream_function (st : PState) :
    Except Err (Int × Int × PState) := do
  let (sfTok, st1) ← st.get_token
  match streamFunctionMatch sfTok.value with
  | none => .error (.located .expectedStreamFunction sfTok)
  | some (d1, d2) => do
    let stream ← pyInt d1
    let function ← pyInt d2
    .ok (stream, function, st1)

/-- `SECSFunction.from_sml`: tokenize, header, optional `w`, then either a
bare `.` or a root item followed by `.`.  The top-level
`SECSData.from_sml_tokens` call resolves to `SECSData._read_item`. -/
def SECSFunction.from_sml (text : String) : Except Err SECSFunction := do
  let toks := tokenize text
  let st : PState := ⟨toks, 0⟩
  let (stream, function, st1) ← SECSFunction.parse_stream_function st
  let pk ← st1.peek_token
  let (wBit, st2) ←
    if pk.value.toLower = "w" then do
      let (_, s) ← st1.get_token
      pure (true, s)
    else pure (false, st1)
  let pk2 ← st2.peek_token
  if pk2.value = "." then .ok ⟨stream, function, wBit, none⟩
  else do
    let (item, st3) ← SECSData.read_item (toks.length + 1) st2
    let (finalTok, _) ← st3.get_token
    if finalTok.value ≠ "." then .error (.located .expectedFinal finalTok)
    else .ok ⟨stream, function, wBit, some item⟩

/-! ## Shared lemmas -/

/-- Bitwise-and distributes over a common right shift. -/
theorem nat_and_shiftRight_distrib (a b k : Nat) :
    (a &&& b) >>> k = (a >>> k) &&& (b >>> k) := by
  apply Nat.eq_of_testBit_eq
  intro i
  simp [Nat.testBit_shiftRight, Nat.testBit_and]

/-- The low-byte mask is reduction mod 256. -/
theorem nat_and_ff (n : Nat) : n &&& 0xFF = n % 256 := by
  have h := Nat.and_pow_two_sub_one_eq_mod n 8
  norm_num at h
  exact h

/-- The second-byte mask-and-shift extracts byte 1. -/
theorem nat_and_ff00_shift (n : Nat) : (n &&& 0xFF00) >>> 8 = n / 256 % 256 := by
  have h1 : (n &&& 0xFF00) >>> 8 = (n >>> 8) &&& (0xFF00 >>> 8) :=
    nat_and_shiftRight_distrib n 0xFF00 8
  have h2 : (0xFF00 : Nat) >>> 8 = 0xFF := by decide
  rw [h1, h2, nat_and_ff, Nat.shiftRight_eq_div_pow]

/-- The third-byte mask-and-shift extracts byte 2. -/
theorem nat_and_ff0000_shift (n : Nat) : (n &&& 0xFF0000) >>> 16 = n / 65536 % 256 := by
  have h1 : (n &&& 0xFF0000) >>> 16 = (n >>> 16) &&& (0xFF0000 >>> 16) :=
    nat_and_shiftRight_distrib n 0xFF0000 16
  have h2 : (0xFF0000 : Nat) >>> 16 = 0xFF := by decide
  rw [h1, h2, nat_and_ff, Nat.shiftRight_eq_div_pow]

/-- The length-byte count the spec's minimality rule demands for a payload
of `n` bytes. -/
def minimalLengthBytes (n : Nat) : Nat :=
  if n ≤ 0xFF then 1 else if n ≤ 0xFFFF then 2 else 3

/-- `beBytes` at width one. -/
theorem beBytes_one (n : Nat) : beBytes 1 n = [n % 256] := by
  simp [beBytes, List.range_succ]

/-- `beBytes` at width two. -/
theorem beBytes_two (n : Nat) : beBytes 2 n = [n / 256 % 256, n % 256] := by
  simp [beBytes, List.range_succ]

/-- `beBytes` at width three. -/
theorem beBytes_three (n : Nat) :
    beBytes 3 n = [n / 65536 % 256, n / 256 % 256, n % 256] := by
  simp [beBytes, List.range_succ]

/-! ## Claim theorems -/

/-- C4: Item-header encoding is minimal and bounded.  For every payload
length `n` the emitted header uses exactly 1 length byte if `n ≤ 0xFF`,
2 if `0xFF < n ≤ 0xFFFF`, 3 if `0xFFFF < n ≤ 0xFFFFFF`, with the length
stored big-endian after the format byte; a length above `0xFFFFFF` raises
the size-overflow error and a negative length is rejected. -/
theorem C4_encode_item_header_minimal (t : Nat) (len : Int) :
    SECSData.encode_item_header t len =
      if len < 0 then .error .headerLengthTooSmall
      else if len > 0xFFFFFF then .error .headerLengthTooBig
      else .ok (((t <<< 2) ||| minimalLengthBytes len.toNat) ::
        beBytes (minimalLengthBytes len.toNat) len.toNat) := by
  unfold SECSData.encode_item_header minimalLengthBytes
  split_ifs with h1 h2 h3 h4 h5 h6 h7 h8 <;>
    first
      | rfl
      | omega
      | (dsimp only
         rw [beBytes_three, nat_and_ff, nat_and_ff00_shift, nat_and_ff0000_shift])
      | (dsimp only
         rw [beBytes_two, nat_and_ff, nat_and_ff00_shift])
      | (dsimp only
         rw [beBytes_one, nat_and_ff])

/-- C1: the binary round-trip `decode(encode(x)) == x` fails for
multi-element numeric items: a U2 item with values `[0, 1]` encodes to
`A9 04 00 00 00 01`, but decoding those bytes yields a U2 item holding only
`[0]`, because the constructor's `validate_value` returns from inside its
loop after the first element. -/
theorem C1_roundtrip_truncates_multielement :
    SECSDataNumber.encode .U2 [0, 1] = .ok [0xA9, 4, 0, 0, 0, 1] ∧
    SECSDataNumber.decode .U2 [0xA9, 4, 0, 0, 0, 1] = .ok (Item.Num .U2 [0], []) ∧
    Item.Num .U2 [0] ≠ Item.Num .U2 [0, 1] := by
  refine ⟨by with_unfolding_all rfl, by with_unfolding_all rfl, ?_⟩
  intro h
  injection h with _ h2
  simp at h2

/-- C2: the bounds check misses later list positions.  Constructing a U1
item from the list `[0, 300]` succeeds (returning the item `[0]`) instead
of raising the out-of-range error, because `validate_value` returns after
the first element; parsing `S1F3 < U1 300 > .` does raise the located
out-of-range error at the `300` token. -/
theorem C2_bounds_skip_later_list_positions :
    SECSDataNumber.validate_value .U1 (.list [0, 300]) = .ok [0] ∧
    SECSFunction.from_sml "S1F3 < U1 300 > ." =
      .error (.located .valueOutOfRange ⟨"300", 1, 1⟩) :=
  ⟨by with_unfolding_all rfl, by with_unfolding_all rfl⟩

/-- C3: parsing `S2F13 < U2 0 1 2 3 > .` does not behave as claimed.
Exactly as written the text fails with an index error (the lexer drops the
final `.` token at end of input); with a trailing newline it parses with
stream 2, function 13, W-bit false, but the root item keeps only the first
element `0` and encodes to the four bytes `A9 02 00 00` instead of the
claimed ten bytes. -/
theorem C3_u2_list_scenario_truncated :
    SECSFunction.from_sml "S2F13 < U2 0 1 2 3 > ." = .error .indexError ∧
    SECSFunction.from_sml "S2F13 < U2 0 1 2 3 > .\n" =
      .ok ⟨2, 13, false, some (.Num .U2 [0])⟩ ∧
    encodeItem (.Num .U2 [0]) = .ok [0xA9, 2, 0, 0] ∧
    encodeItem (.Num .U2 [0]) ≠ .ok [0xA9, 8, 0, 0, 0, 1, 0, 2, 0, 3] := by
  refine ⟨by with_unfolding_all rfl, by with_unfolding_all rfl,
    by with_unfolding_all rfl, ?_⟩
  intro h
  rw [show encodeItem (.Num .U2 [0]) = .ok [0xA9, 2, 0, 0] from by with_unfolding_all rfl] at h
  injection h with h1
  simp at h1

/-- C8: lexer tokens are not tagged with the true 1-based column of their
first character.  In `" x "` the word token `x` (first char at column 2) is
recorded with column 1 — the location helper's `column` property returns
the line; in `"<"` the operator `<` (column 1) is recorded with column 2 —
on the first line the operator column is off by one; in `"\nb "` the word
token `b` on line 2 column 1 is recorded with column 2 (again its line). -/
theorem C8_token_columns_wrong :
    tokenize " x " = [⟨"x", 1, 1⟩] ∧ tokenize " x " ≠ [⟨"x", 1, 2⟩] ∧
    tokenize "<" = [⟨"<", 1, 2⟩] ∧ tokenize "<" ≠ [⟨"<", 1, 1⟩] ∧
    tokenize "\nb " = [⟨"b", 2, 2⟩] ∧ tokenize "\nb " ≠ [⟨"b", 2, 1⟩] := by
  exact ⟨rfl, by decide, rfl, by decide, rfl, by decide⟩

/-- C9 counterexample: an empty `J` item does not render as `< J >` — the
`J` renderer's format string has no space before the closing bracket, so it
renders `< J>`. -/
theorem C9_empty_J_not_spaced :
    Item.to_sml (.J []) 0 = "< J>" ∧ "< J>" ≠ "< J >" :=
  ⟨by with_unfolding_all rfl, by decide⟩

/-- C9 amended: every variant except `J` pretty-prints an empty payload at
indent `indent` as the indent spaces followed by `< TAG >` with one space
on each side of the tag; `J` renders `< J>` with no space before the
closing bracket (`A` per the spec's words, its string base class being
outside `src/`). -/
theorem C9_empty_payload_rendering (indent : Nat) :
    Item.to_sml (.L []) indent = spaces indent ++ "< L >" ∧
    Item.to_sml (.B []) indent = spaces indent ++ "< B >" ∧
    Item.to_sml (.BOOLEAN []) indent = spaces indent ++ "< BOOLEAN >" ∧
    Item.to_sml (.A []) indent = spaces indent ++ "< A >" ∧
    (∀ t : NumTag, Item.to_sml (.Num t []) indent = spaces indent ++ "< " ++ t.sml ++ " >") ∧
    (∀ t : FloatTag, Item.to_sml (.F t []) indent = spaces indent ++ "< " ++ t.sml ++ " >") ∧
    Item.to_sml (.J []) indent = spaces indent ++ "< J>" := by
  refine ⟨?_, ?_, ?_, ?_, fun t => ?_, fun t => ?_, ?_⟩ <;>
    simp [Item.to_sml, SECSData.to_sml_base, SECSDataA.to_sml, SECSDataA.parts,
      SECSDataJ.to_sml, SECSDataJ.render, String.ext_iff]


/-- Inversion of a successful `Except` bind. -/
theorem except_bind_ok_iff {α β : Type} (x : Except Err α) (f : α → Except Err β) (b : β) :
    x >>= f = .ok b ↔ ∃ a, x = .ok a ∧ f a = .ok b := by
  cases x <;> simp [Bind.bind, Except.bind]

/-- A successful integer `validate_value` never returns an empty list. -/
theorem validate_value_ok_nonempty (t : NumTag) (pv : NumPyValue) (res : List Int)
    (h : SECSDataNumber.validate_value t pv = .ok res) : res ≠ [] := by
  match pv with
  | .list [] => simp [SECSDataNumber.validate_value] at h
  | .other => simp [SECSDataNumber.validate_value] at h
  | .list (v :: rest) =>
    simp only [SECSDataNumber.validate_value] at h
    rw [except_bind_ok_iff] at h
    obtain ⟨v', -, h⟩ := h
    injection h with h
    subst h
    simp
  | .scalar v =>
    simp only [SECSDataNumber.validate_value] at h
    rw [except_bind_ok_iff] at h
    obtain ⟨v', -, h⟩ := h
    injection h with h
    subst h
    simp

/-- A successful float `validate_value` never returns an empty list. -/
theorem validate_float_ok_nonempty (t : FloatTag) (pv : FloatPyValue) (res : List Rat)
    (h : SECSDataNumber.validate_float_value t pv = .ok res) : res ≠ [] := by
  match pv with
  | .list [] => simp [SECSDataNumber.validate_float_value] at h
  | .other => simp [SECSDataNumber.validate_float_value] at h
  | .list (v :: rest) =>
    simp only [SECSDataNumber.validate_float_value] at h
    rw [except_bind_ok_iff] at h
    obtain ⟨v', -, h⟩ := h
    injection h with h
    subst h
    simp
  | .scalar v =>
    simp only [SECSDataNumber.validate_float_value] at h
    rw [except_bind_ok_iff] at h
    obtain ⟨v', -, h⟩ := h
    injection h with h
    subst h
    simp

/-- C10: no numeric item can have an empty payload.  Constructing any
integer or float numeric variant from an empty list raises the invalid-type
error; decoding a numeric item whose header declares payload length 0 also
raises it; and any construction or decode that succeeds yields a nonempty
payload. -/
theorem C10_numeric_empty_payload_impossible :
    (∀ t : NumTag, SECSDataNumber.validate_value t (.list []) = .error .invalidType) ∧
    (∀ t : FloatTag, SECSDataNumber.validate_float_value t (.list []) = .error .invalidType) ∧
    (∀ (t : NumTag) (rest : List Nat),
      SECSDataNumber.decode t (((t.hsms <<< 2) ||| 1) :: 0 :: rest) = .error .invalidType) ∧
    (∀ (t : NumTag) (pv : NumPyValue) (res : List Int),
      SECSDataNumber.validate_value t pv = .ok res → res ≠ []) ∧
    (∀ (t : FloatTag) (pv : FloatPyValue) (res : List Rat),
      SECSDataNumber.validate_float_value t pv = .ok res → res ≠ []) ∧
    (∀ (t : NumTag) (pd : List Nat) (vs : List Int) (rem : List Nat),
      SECSDataNumber.decode t pd = .ok (Item.Num t vs, rem) → vs ≠ []) := by
  refine ⟨fun t => rfl, fun t => rfl, fun t rest => ?_, validate_value_ok_nonempty,
    validate_float_ok_nonempty, fun t pd vs rem h => ?_⟩
  · cases t <;> with_unfolding_all rfl
  · unfold SECSDataNumber.decode at h
    rw [except_bind_ok_iff] at h
    obtain ⟨⟨code, len, pd1⟩, -, h⟩ := h
    rw [except_bind_ok_iff] at h
    obtain ⟨⟨vals, pd2⟩, -, h⟩ := h
    rw [except_bind_ok_iff] at h
    obtain ⟨vals', hv, h⟩ := h
    injection h with h
    injection h with h1 hsnd
    have h2 : vals' = vs := by injection h1 with hL hR
    subst h2
    exact validate_value_ok_nonempty t (.list vals) vals' hv

/-- C10 witness at concrete inputs: a scalar-constructed U1 item and a
decoded U1 item both have nonempty payloads. -/
theorem C10_numeric_empty_payload_impossible_witness :
    (([5] : List Int) ≠ []) ∧ (([2] : List Int) ≠ []) :=
  ⟨C10_numeric_empty_payload_impossible.2.2.2.1 .U1 (.scalar 5) [5]
      (by with_unfolding_all rfl),
   C10_numeric_empty_payload_impossible.2.2.2.2.2 .U1 [0xA5, 2, 2, 9] [2] []
      (by with_unfolding_all rfl)⟩

/-- The numeric reading loop fails with `No enough data found` whenever the
buffer holds fewer bytes than the requested chunks need. -/
theorem read_values_short (t : NumTag) :
    ∀ (k : Nat) (pd : List Nat), pd.length < k * t.bytes →
      SECSDataNumber.read_values t k pd = .error .noEnoughData := by
  intro k
  induction k with
  | zero => intro pd h; simp at h
  | succ k ih =>
    intro pd h
    simp only [SECSDataNumber.read_values]
    by_cases hb : t.bytes ≤ pd.length
    · have hch : (pd.take t.bytes).length = t.bytes := by
        rw [List.length_take]; omega
      rw [if_neg (by simp [hch])]
      have hlt : (pd.drop t.bytes).length < k * t.bytes := by
        rw [List.length_drop]
        have hmul : (k + 1) * t.bytes = k * t.bytes + t.bytes := by ring
        rw [hmul] at h
        omega
      rw [ih _ hlt]
      rfl
    · push_neg at hb
      have hch : (pd.take t.bytes).length ≠ t.bytes := by
        rw [List.length_take]; omega
      rw [if_pos hch]

/-- C5 counterexample: a declared length that is not a multiple of the
element size does not raise — decoding `A9 03 00 01 02` (U2, declared
length 3) succeeds, floors to one element `0x0001` and leaves the trailing
byte `02` unread, instead of raising the claimed truncated-payload
error. -/
theorem C5_nonmultiple_length_not_rejected :
    SECSDataNumber.decode .U2 [0xA9, 3, 0, 1, 2] = .ok (Item.Num .U2 [1], [2]) ∧
    ∀ e : Err, SECSDataNumber.decode .U2 [0xA9, 3, 0, 1, 2] ≠ .error e := by
  refine ⟨by with_unfolding_all rfl, fun e h => ?_⟩
  rw [show SECSDataNumber.decode .U2 [0xA9, 3, 0, 1, 2] = .ok (Item.Num .U2 [1], [2])
    from by with_unfolding_all rfl] at h
  exact Except.noConfusion h

/-- C5 amended: for the fixed-width numeric variants, decode raises the
`No enough data found` error exactly when the buffer holds fewer bytes than
the `length // element_size` full elements need — in particular decoding
`A5 04 01 02 03` raises it; a declared length that is not a multiple of the
element size is floored without error, and the `B` variant silently
returns however many payload bytes remain. -/
theorem C5_truncation_behaviour :
    (∀ (t : NumTag) (len : Nat) (rest : List Nat),
      rest.length < (len / t.bytes) * t.bytes →
      SECSDataNumber.decode t (((t.hsms <<< 2) ||| 1) :: len :: rest) =
        .error .noEnoughData) ∧
    SECSDataNumber.decode .U1 [0xA5, 4, 1, 2, 3] = .error .noEnoughData ∧
    SECSDataNumber.decode .U2 [0xA9, 3, 0, 1, 2] = .ok (Item.Num .U2 [1], [2]) ∧
    SECSDataB.decode [0x21, 4, 1, 2, 3] = .ok (Item.B [1, 2, 3], []) := by
  refine ⟨fun t len rest hshort => ?_, by with_unfolding_all rfl,
    by with_unfolding_all rfl, by with_unfolding_all rfl⟩
  have hs := read_values_short t (len / t.bytes) rest hshort
  cases t <;>
    simp_all [SECSDataNumber.decode, SECSData.decode_item_header, PacketData.get_one,
      SECSData.read_length_bytes, NumTag.bytes, NumTag.hsms, Except.bind, Bind.bind]

/-- C5 witness: the general truncation clause applied at U1, declared
length 4, three remaining bytes — the bytes `A5 04 01 02 03`. -/
theorem C5_truncation_behaviour_witness :
    SECSDataNumber.decode .U1 ((NumTag.hsms .U1 <<< 2 ||| 1) :: 4 :: [1, 2, 3]) =
      .error .noEnoughData :=
  C5_truncation_behaviour.1 .U1 4 [1, 2, 3] (by decide)

/-- C6 counterexample: parsing `S1F3 < U1 [3] 1 2 > .` does not raise the
claimed count-mismatch — the numeric body reader feeds the `[` token to
`int(..)`, so the parse fails with an unlocated integer-parse error. -/
theorem C6_u1_count_not_checked :
    SECSFunction.from_sml "S1F3 < U1 [3] 1 2 > ." = .error .intParseError ∧
    ∀ tok : SMLToken, (Err.intParseError : Err) ≠ .located .countMismatch tok :=
  ⟨by with_unfolding_all rfl, fun _ h => Err.noConfusion h⟩

/-- C6 amended: only `L` items support a bracketed count.  For `L`, a
present count token whose nonzero value differs from the number of parsed
children raises the located count-mismatch error at the count token — in
particular `S1F1 < L [3] < U1 1 > < U1 2 > > .` raises it at the `3`
token — while for other tags such as `U1` the `[` token is consumed by the
integer parser and the parse fails with an integer-parse error instead. -/
theorem C6_count_only_checked_for_L :
    (∀ (tok : SMLToken) (count : Nat) (n : Int),
      pyInt tok.value = .ok n → 0 < n → n ≠ (count : Int) →
      SECSData.check_count (some tok) count = .error (.located .countMismatch tok)) ∧
    SECSFunction.from_sml "S1F1 < L [3] < U1 1 > < U1 2 > > ." =
      .error (.located .countMismatch ⟨"3", 1, 1⟩) ∧
    SECSFunction.from_sml "S1F3 < U1 [3] 1 2 > ." = .error .intParseError := by
  refine ⟨fun tok count n hp h1 h2 => ?_, by with_unfolding_all rfl,
    by with_unfolding_all rfl⟩
  simp [SECSData.check_count, hp, Except.bind, Bind.bind, h1, h2]

/-- C6 witness: the count check applied at the `3` token against two parsed
children. -/
theorem C6_count_only_checked_for_L_witness :
    SECSData.check_count (some ⟨"3", 1, 1⟩) 2 =
      .error (.located .countMismatch ⟨"3", 1, 1⟩) :=
  C6_count_only_checked_for_L.1 ⟨"3", 1, 1⟩ 2 3 (by with_unfolding_all rfl) (by decide) (by decide)

/-- Python `int` succeeds on any nonempty all-digit string. -/
theorem pyIntChars_all_digits (l : List Char) (h0 : l ≠ [])
    (hd : l.all Char.isDigit) : pyIntChars l = .ok (digitsVal l) := by
  match l with
  | c :: rest =>
    have hc : c.isDigit := by
      simp only [List.all_cons, Bool.and_eq_true] at hd
      exact hd.1
    have h1 : ¬(c = '-') := fun e => by subst e; exact absurd hc (by decide)
    have h2 : ¬(c = '+') := fun e => by subst e; exact absurd hc (by decide)
    simp only [pyIntChars, if_neg h1, if_neg h2, if_pos hd]

/-- The two groups a successful header match returns are all-digit
strings: the first is a `takeWhile` of digits from after the `s`, the
second from after the `f`. -/
theorem sfMatch_groups_digits (l : List Char) (d1 d2 : String)
    (h : sfMatchChars l = some (d1, d2)) :
    d1.data.all Char.isDigit ∧ d2.data.all Char.isDigit := by
  match l with
  | [] => exact absurd h (by simp [sfMatchChars])
  | c :: rest =>
    simp only [sfMatchChars] at h
    split at h
    · split at h
      · exact absurd h (by simp)
      · split at h
        · split at h
          · injection h with h
            injection h with hd1 hd2
            subst hd1
            subst hd2
            exact ⟨List.all_takeWhile, List.all_takeWhile⟩
          · exact absurd h (by simp)
        · exact absurd h (by simp)
    · exact absurd h (by simp)

/-- A header token matches the source's starred pattern with both digit
groups nonempty exactly when it matches the spec's strict
`^[sS]\d+[fF]\d+$` pattern. -/
theorem sfMatch_strict_iff (l : List Char) :
    (∃ d1 d2, sfMatchChars l = some (d1, d2) ∧ d1 ≠ "" ∧ d2 ≠ "") ↔
      specStrictHeaderChars l = true := by
  match l with
  | [] => simp [sfMatchChars, specStrictHeaderChars]
  | c :: rest =>
    simp only [sfMatchChars, specStrictHeaderChars]
    by_cases hc : c = 's' ∨ c = 'S'
    · rw [if_pos hc, if_pos hc]
      cases hdrop : rest.dropWhile Char.isDigit with
      | nil => simp
      | cons f rest2 =>
        dsimp only
        by_cases hf : f = 'f' ∨ f = 'F'
        · rw [if_pos hf, if_pos hf]
          cases hdrop2 : rest2.dropWhile Char.isDigit with
          | nil =>
            dsimp only
            constructor
            · rintro ⟨d1, d2, heq, n1, n2⟩
              injection heq with heq
              injection heq with h1 h2
              subst h1
              subst h2
              simp only [ne_eq, String.ext_iff] at n1 n2
              simp only [Bool.and_eq_true, Bool.not_eq_true', List.isEmpty_eq_false]
              exact ⟨by simpa using n1, by simpa using n2⟩
            · intro hb
              simp only [Bool.and_eq_true, Bool.not_eq_true', List.isEmpty_eq_false] at hb
              refine ⟨_, _, rfl, ?_, ?_⟩
              · simpa [String.ext_iff] using hb.1
              · simpa [String.ext_iff] using hb.2
          | cons x xs => simp
        · rw [if_neg hf, if_neg hf]
          simp
    · rw [if_neg hc, if_neg hc]
      simp

/-- C7 counterexample: the first token `SF` is not rejected with a located
syntax error.  It matches the source's starred pattern
`^[sS](\d*)[fF](\d*)$` with empty digit groups, and the rejection comes
from `int('')` as an unlocated integer-parse error. -/
theorem C7_SF_not_syntax_error :
    SECSFunction.from_sml "SF ." = .error .intParseError ∧
    ∀ (k : ErrKind) (tok : SMLToken), (Err.intParseError : Err) ≠ .located k tok :=
  ⟨rfl, fun _ _ h => Err.noConfusion h⟩

/-- C7 amended: `from_sml` accepts a first token exactly when it matches
the spec's strict `^[sS]\d+[fF]\d+$` — but the mechanisms differ from the
claim.  A token failing the source's starred pattern
`^[sS](\d*)[fF](\d*)$` gets the located syntax error; a token matching it
with both digit groups nonempty (equivalently, matching the strict
pattern) has both groups convert with `int(..)`; a token matching with an
empty group, such as `SF`, fails in `int('')` with an unlocated
integer-parse error instead of a located syntax error. -/
theorem C7_header_acceptance :
    (∀ (st : PState) (tok : SMLToken) (st1 : PState),
      st.get_token = .ok (tok, st1) → streamFunctionMatch tok.value = none →
      SECSFunction.parse_stream_function st =
        .error (.located .expectedStreamFunction tok)) ∧
    (∀ s : String, (∃ d1 d2, streamFunctionMatch s = some (d1, d2) ∧ d1 ≠ "" ∧ d2 ≠ "")
        ↔ specStrictHeader s = true) ∧
    (∀ (s : String) (d1 d2 : String), streamFunctionMatch s = some (d1, d2) →
      d1 ≠ "" → d2 ≠ "" →
      pyInt d1 = .ok (digitsVal d1.data) ∧ pyInt d2 = .ok (digitsVal d2.data)) ∧
    streamFunctionMatch "SF" = some ("", "") ∧
    pyInt "" = .error .intParseError ∧
    SECSFunction.from_sml "SF ." = .error .intParseError := by
  refine ⟨fun st tok st1 hget hmatch => ?_, fun s => sfMatch_strict_iff s.data,
    fun s d1 d2 hm h1 h2 => ?_, rfl, rfl, rfl⟩
  · unfold SECSFunction.parse_stream_function
    rw [hget]
    simp [Bind.bind, Except.bind, hmatch]
  · obtain ⟨hd1, hd2⟩ := sfMatch_groups_digits s.data d1 d2 hm
    exact ⟨pyIntChars_all_digits d1.data (by simpa [String.ext_iff] using h1) hd1,
      pyIntChars_all_digits d2.data (by simpa [String.ext_iff] using h2) hd2⟩

/-- C7 witness: a non-matching first token gets the located syntax error,
and the two digit groups of `S12F7` both convert. -/
theorem C7_header_acceptance_witness :
    SECSFunction.parse_stream_function ⟨[⟨"hello", 1, 1⟩], 0⟩ =
      .error (.located .expectedStreamFunction ⟨"hello", 1, 1⟩) ∧
    pyInt "12" = .ok (digitsVal "12".data) ∧ pyInt "7" = .ok (digitsVal "7".data) := by
  refine ⟨C7_header_acceptance.1 ⟨[⟨"hello", 1, 1⟩], 0⟩ ⟨"hello", 1, 1⟩
      ⟨[⟨"hello", 1, 1⟩], 1⟩ rfl rfl, ?_, ?_⟩
  · exact (C7_header_acceptance.2.2.1 "S12F7" "12" "7" rfl (by decide) (by decide)).1
  · exact (C7_header_acceptance.2.2.1 "S12F7" "12" "7" rfl (by decide) (by decide)).2
